import Mathlib

/-!
Verification of the generation-session logic of the image-generator app
(src/src/App.tsx). The stateful core — prompt / aspect-ratio fields, the
generate lifecycle, history and selection management, deletion and
download — is embedded as pure functions over an explicit state record.
The external Gemini call is modelled as an environment value: either a
structured response (candidates / content / parts, where a part may carry
inline base64 image data) or a fault with an optional message.
-/

/-- The `GeneratedImage` interface (App.tsx lines 26-32). -/
structure GeneratedImage where
  id : String
  url : String
  prompt : String
  timestamp : Nat
  aspectRatio : String
  deriving DecidableEq, Repr

/-- A content part of the model response; `inlineData` holds the base64
payload (`part.inlineData.data`) when present. -/
structure RespPart where
  text : Option String
  inlineData : Option String
  deriving DecidableEq, Repr

/-- `content` object of a candidate, with an optional `parts` array. -/
structure Content where
  parts : Option (List RespPart)
  deriving DecidableEq, Repr

/-- A response candidate with optional `content`. -/
structure Candidate where
  content : Option Content
  deriving DecidableEq, Repr

/-- The response of `models.generateContent`, with optional `candidates`. -/
structure GenResponse where
  candidates : Option (List Candidate)
  deriving DecidableEq, Repr

/-- Outcome of the awaited external call: a response, or a raised fault
carrying an optional `message`. -/
inductive GenOutcome where
  | success (response : GenResponse)
  | fault (message : Option String)
  deriving DecidableEq, Repr

/-- Environment of one `handleGenerate` invocation: whether
`aiRef.current` is non-null (a `GEMINI_API_KEY` was configured), the
outcome of the external call, the id produced by
`Math.random().toString(36).substring(7)`, and `Date.now()`. -/
structure GenEnv where
  apiConfigured : Bool
  result : GenOutcome
  freshId : String
  now : Nat
  deriving DecidableEq, Repr

/-- The React state of `App` (App.tsx lines 44-49). -/
structure AppState where
  prompt : String
  isGenerating : Bool
  aspectRatio : String
  history : List GeneratedImage
  selectedImage : Option GeneratedImage
  error : Option String
  deriving DecidableEq, Repr

/-- JavaScript `String.prototype.trim`: strip whitespace from both ends
(modelled over the character list so it evaluates by reduction). -/
def jsTrim (s : String) : String :=
  String.mk (((s.data.dropWhile Char.isWhitespace).reverse.dropWhile
    Char.isWhitespace).reverse)

/-- Error message set when `aiRef.current` is null (App.tsx line 63). -/
def apiKeyErrorMsg : String :=
  "API Key not found. Please check your environment variables."

/-- Error thrown when the response holds no inline image (App.tsx line 103). -/
def noImageDataMsg : String := "No image data returned from the model."

/-- Fallback of `err.message || ...` (App.tsx line 107). -/
def genericFaultMsg : String :=
  "An unexpected error occurred during generation."

/-- `err.message || "An unexpected error occurred during generation."`:
the fault message when present and non-empty (JS truthiness), else the
generic fallback. -/
def faultErrorMessage : Option String → String
  | some m => if m = "" then genericFaultMsg else m
  | none => genericFaultMsg

/-- `response.candidates?.[0]?.content?.parts || []` (App.tsx line 84):
the parts of the first candidate, or `[]` when any link of the optional
chain is absent. -/
def responseParts (r : GenResponse) : List RespPart :=
  match r.candidates with
  | none => []
  | some cands =>
    match cands.head? with
    | none => []
    | some c =>
      match c.content with
      | none => []
      | some content =>
        match content.parts with
        | none => []
        | some ps => ps

/-- The loop of App.tsx lines 83-89: `imageUrl` starts as `""`; the first
part with `inlineData` sets it to the PNG data URI and breaks. -/
def extractImageUrl : List RespPart → String
  | [] => ""
  | p :: rest =>
    match p.inlineData with
    | some d => "data:image/png;base64," ++ d
    | none => extractImageUrl rest

/-- `handleGenerate` (App.tsx lines 60-111) as a pure function from the
pre-state and the call environment to the post-state, paired with a flag
recording whether the external request was issued. -/
def handleGenerate (s : AppState) (env : GenEnv) : AppState × Bool :=
  if jsTrim s.prompt = "" then (s, false)
  else if env.apiConfigured = false then
    ({ s with error := some apiKeyErrorMsg }, false)
  else
    let s1 : AppState := { s with isGenerating := true, error := none }
    match env.result with
    | GenOutcome.fault msg =>
      ({ s1 with error := some (faultErrorMessage msg), isGenerating := false }, true)
    | GenOutcome.success resp =>
      let imageUrl := extractImageUrl (responseParts resp)
      if imageUrl = "" then
        ({ s1 with error := some noImageDataMsg, isGenerating := false }, true)
      else
        let newImage : GeneratedImage :=
          { id := env.freshId, url := imageUrl, prompt := s1.prompt,
            timestamp := env.now, aspectRatio := s1.aspectRatio }
        ({ s1 with history := newImage :: s1.history,
                   selectedImage := some newImage,
                   prompt := "",
                   isGenerating := false }, true)

/-- The same invocation as the sequence of observable states, one per
`setX` call: the pre-state, then the state after each state update, with
the `finally` reset of `isGenerating` last. -/
def handleGenerateTrace (s : AppState) (env : GenEnv) : List AppState :=
  if jsTrim s.prompt = "" then [s]
  else if env.apiConfigured = false then
    [s, { s with error := some apiKeyErrorMsg }]
  else
    let s1 : AppState := { s with isGenerating := true }
    let s2 : AppState := { s1 with error := none }
    match env.result with
    | GenOutcome.fault msg =>
      let s3 : AppState := { s2 with error := some (faultErrorMessage msg) }
      [s, s1, s2, s3, { s3 with isGenerating := false }]
    | GenOutcome.success resp =>
      let imageUrl := extractImageUrl (responseParts resp)
      if imageUrl = "" then
        let s3 : AppState := { s2 with error := some noImageDataMsg }
        [s, s1, s2, s3, { s3 with isGenerating := false }]
      else
        let newImage : GeneratedImage :=
          { id := env.freshId, url := imageUrl, prompt := s2.prompt,
            timestamp := env.now, aspectRatio := s2.aspectRatio }
        let s3 : AppState := { s2 with history := newImage :: s2.history }
        let s4 : AppState := { s3 with selectedImage := some newImage }
        let s5 : AppState := { s4 with prompt := "" }
        [s, s1, s2, s3, s4, s5, { s5 with isGenerating := false }]

/-- `deleteImage` (App.tsx lines 113-116): filter the id out of history;
clear the selection when it carried that id. -/
def deleteImage (s : AppState) (id : String) : AppState :=
  { s with
    history := s.history.filter (fun img => img.id != id),
    selectedImage :=
      match s.selectedImage with
      | some sel => if sel.id = id then none else some sel
      | none => none }

/-- The history-thumbnail click handler `setSelectedImage(img)` (App.tsx
line 356), in by-id form: select the history entry whose id matches,
no-op when none does. -/
def selectImage (s : AppState) (id : String) : AppState :=
  match s.history.find? (fun img => img.id == id) with
  | some img => { s with selectedImage := some img }
  | none => s

/-- The anchor element built by `downloadImage` (App.tsx lines 118-125):
its `href` and `download` attributes. -/
structure DownloadAction where
  href : String
  downloadName : String
  deriving DecidableEq, Repr

/-- `downloadImage(url, filename)` (App.tsx lines 118-125): touches no
React state; clicks a link with `href = url` and
`download = filename + ".png"`. -/
def downloadImage (s : AppState) (url filename : String) :
    AppState × DownloadAction :=
  (s, { href := url, downloadName := filename ++ ".png" })

/-- `setPrompt` state setter (App.tsx line 44, used at lines 189, 195, 101). -/
def setPrompt (s : AppState) (t : String) : AppState := { s with prompt := t }

/-- The `value` fields of `ASPECT_RATIOS` (App.tsx lines 35-41). -/
def aspectRatioValues : List String := ["1:1", "16:9", "9:16", "4:3", "3:4"]

/-- `setAspectRatio` state setter (App.tsx line 46, invoked only with
members of `ASPECT_RATIOS`, line 214). -/
def setAspectRatio (s : AppState) (v : String) : AppState :=
  { s with aspectRatio := v }

/-- The session operations that can touch state. -/
inductive Op where
  | opSetPrompt (t : String)
  | opSetAspectRatio (v : String)
  | opGenerate (env : GenEnv)
  | opSelect (id : String)
  | opDelete (id : String)
  | opDownload (url filename : String)
  deriving Repr

/-- One UI-level operation applied to the state. `opSetAspectRatio` is
guarded by membership in the fixed ratio list, as the UI only offers
those buttons. -/
def applyOp (s : AppState) : Op → AppState
  | Op.opSetPrompt t => setPrompt s t
  | Op.opSetAspectRatio v =>
    if v ∈ aspectRatioValues then setAspectRatio s v else s
  | Op.opGenerate env => (handleGenerate s env).1
  | Op.opSelect id => selectImage s id
  | Op.opDelete id => deleteImage s id
  | Op.opDownload url filename => (downloadImage s url filename).1

/-- Initial React state (App.tsx lines 44-49). -/
def initState : AppState :=
  { prompt := "", isGenerating := false, aspectRatio := "1:1",
    history := [], selectedImage := none, error := none }

/-- Run a sequence of operations from a state. -/
def runOps : AppState → List Op → AppState
  | s, [] => s
  | s, op :: ops => runOps (applyOp s op) ops

/-- All images inserted into history along a run, most recent first. -/
def generatedImages : AppState → List Op → List GeneratedImage
  | _, [] => []
  | s, op :: ops =>
    let s' := applyOp s op
    generatedImages s' ops ++ s'.history.take (s'.history.length - s.history.length)

/-- Selection well-formedness: a non-null selection is a history entry. -/
def WF (s : AppState) : Prop :=
  ∀ img, s.selectedImage = some img → img ∈ s.history

/-- A content part carrying inline base64 data. -/
def partInline : RespPart := { text := none, inlineData := some "QUJD" }

/-- A response with a single candidate carrying one inline payload. -/
def respOneInline : GenResponse where
  candidates := some [{ content := some { parts := some [partInline] } }]

/-- A response with a candidate whose content has zero parts. -/
def respNoRespParts : GenResponse where
  candidates := some [{ content := some { parts := some [] } }]

/-- Environment: key configured, call succeeds with one inline payload. -/
def envSuccess : GenEnv where
  apiConfigured := true
  result := GenOutcome.success respOneInline
  freshId := "abc123"
  now := 7

/-- Environment: key configured, call raises a fault "rate limited". -/
def envFault : GenEnv where
  apiConfigured := true
  result := GenOutcome.fault (some "rate limited")
  freshId := "abc123"
  now := 7

/-- Environment: key configured, response has zero content parts. -/
def envEmptyResp : GenEnv where
  apiConfigured := true
  result := GenOutcome.success respNoRespParts
  freshId := "abc123"
  now := 7

/-- Environment: no key configured. -/
def envNoKey : GenEnv where
  apiConfigured := false
  result := GenOutcome.fault none
  freshId := "abc123"
  now := 7

/-- A ready-to-generate state with the scenario prompt. -/
def stPrompted : AppState := { initState with prompt := "a red circle" }

example : (handleGenerate initState envFault).1 = initState := by decide

example : (handleGenerate stPrompted envSuccess).1.history.length = 1 := by
  decide

example : (handleGenerate stPrompted envSuccess).1.prompt = "" := by decide

example : (handleGenerate stPrompted envEmptyResp).1.error
    = some noImageDataMsg := by decide

example : (handleGenerate stPrompted envFault).1.error
    = some "rate limited" := by decide

/-! ### Helper lemmas -/

lemma dataUri_ne_empty (d : String) :
    ("data:image/png;base64," ++ d) ≠ "" := by
  intro h
  have h2 := congrArg String.length h
  simp [String.length_append] at h2
  have h3 : "data:image/png;base64,".length = 22 := rfl
  omega

lemma extractImageUrl_ne_empty {ps : List RespPart}
    (h : ∃ p ∈ ps, p.inlineData.isSome) : extractImageUrl ps ≠ "" := by
  induction ps with
  | nil => rcases h with ⟨p, hp, _⟩; cases hp
  | cons q rest ih =>
    cases hq : q.inlineData with
    | some d => simpa [extractImageUrl, hq] using dataUri_ne_empty d
    | none =>
      rcases h with ⟨p, hp, hsome⟩
      rcases List.mem_cons.mp hp with rfl | hmem
      · rw [hq] at hsome; cases hsome
      · simpa [extractImageUrl, hq] using ih ⟨p, hmem, hsome⟩

lemma extractImageUrl_eq_empty {ps : List RespPart}
    (h : ∀ p ∈ ps, p.inlineData = none) : extractImageUrl ps = "" := by
  induction ps with
  | nil => rfl
  | cons q rest ih =>
    have hq := h q (List.mem_cons_self q rest)
    simpa [extractImageUrl, hq] using ih fun p hp => h p (List.mem_cons_of_mem q hp)

lemma extractImageUrl_first {ps : List RespPart} {p : RespPart} {d : String}
    (hfind : ps.find? (fun q => q.inlineData.isSome) = some p)
    (hd : p.inlineData = some d) :
    extractImageUrl ps = "data:image/png;base64," ++ d := by
  induction ps with
  | nil => cases hfind
  | cons q rest ih =>
    cases hq : q.inlineData with
    | some e =>
      rw [List.find?_cons_of_pos _ (by simp [hq])] at hfind
      cases hfind
      rw [hq] at hd
      cases hd
      simp [extractImageUrl, hq]
    | none =>
      rw [List.find?_cons_of_neg _ (by simp [hq])] at hfind
      simpa [extractImageUrl, hq] using ih hfind

/-! ### Claims -/

/-- C9: generate() with an empty or whitespace-only prompt performs no
external call and produces no state change: the post-state equals the
pre-state, the request flag is false, and the trace holds no state but
the pre-state. -/
theorem generate_blank_prompt_noop (s : AppState) (env : GenEnv)
    (hp : jsTrim s.prompt = "") :
    handleGenerate s env = (s, false) ∧ handleGenerateTrace s env = [s] := by
  constructor
  · simp [handleGenerate, hp]
  · simp [handleGenerateTrace, hp]

/-- C9 witness: a whitespace-only prompt leaves the state untouched. -/
theorem generate_blank_prompt_noop_witness :
    handleGenerate { initState with prompt := "   " } envSuccess
      = ({ initState with prompt := "   " }, false) :=
  (generate_blank_prompt_noop { initState with prompt := "   " } envSuccess
    (by decide)).1

/-- C10: downloadImage(url, filename) changes no session state and
triggers a save of the given data with a name derived from the given
filename (the `.png` extension appended). -/
theorem downloadImage_frame (s : AppState) (url filename : String) :
    (downloadImage s url filename).1 = s ∧
    (downloadImage s url filename).2.href = url ∧
    (downloadImage s url filename).2.downloadName = filename ++ ".png" :=
  ⟨rfl, rfl, rfl⟩

/-- C4 counterexample: on a blank prompt, generate() returns before the
credential check, so an invocation with no credential configured can end
without the fixed configuration error ever being set. -/
theorem generate_no_key_counterexample :
    envNoKey.apiConfigured = false ∧
    (handleGenerate initState envNoKey).1.error ≠ some apiKeyErrorMsg := by
  constructor
  · rfl
  · decide

/-- C4 (amended): when no credential is configured, generate() issues no
external request and never changes isGenerating; when additionally the
trimmed prompt is non-empty, the fixed configuration error message is
produced and nothing else changes. -/
theorem generate_no_key (s : AppState) (env : GenEnv)
    (hk : env.apiConfigured = false) :
    (handleGenerate s env).2 = false ∧
    (∀ x ∈ handleGenerateTrace s env, x.isGenerating = s.isGenerating) ∧
    (jsTrim s.prompt ≠ "" →
      (handleGenerate s env).1 = { s with error := some apiKeyErrorMsg }) := by
  by_cases hp : jsTrim s.prompt = ""
  · refine ⟨?_, ?_, fun h => absurd hp h⟩
    · simp [handleGenerate, hp]
    · simp [handleGenerateTrace, hp]
  · refine ⟨?_, ?_, fun _ => ?_⟩
    · simp [handleGenerate, hp, hk]
    · simp [handleGenerateTrace, hp, hk]
    · simp [handleGenerate, hp, hk]

/-- C4 witness: the amended statement at a concrete prompted state. -/
theorem generate_no_key_witness :
    (handleGenerate stPrompted envNoKey).2 = false ∧
    (∀ x ∈ handleGenerateTrace stPrompted envNoKey,
      x.isGenerating = stPrompted.isGenerating) ∧
    (jsTrim stPrompted.prompt ≠ "" →
      (handleGenerate stPrompted envNoKey).1
        = { stPrompted with error := some apiKeyErrorMsg }) :=
  generate_no_key stPrompted envNoKey rfl

/-- C3: with the prompt and credential preconditions met, a response with
no inline payload sets the error to exactly the fixed no-image message
with history unchanged, and a fault sets the error to the fault's message
when present and non-empty — else to the generic fallback — with history
unchanged. -/
theorem generate_failure_errors (s : AppState) (env : GenEnv)
    (hp : jsTrim s.prompt ≠ "") (hk : env.apiConfigured = true) :
    (∀ resp, env.result = GenOutcome.success resp →
      (∀ p ∈ responseParts resp, p.inlineData = none) →
      (handleGenerate s env).1.error = some noImageDataMsg ∧
      (handleGenerate s env).1.history = s.history) ∧
    (∀ msg, env.result = GenOutcome.fault msg →
      (handleGenerate s env).1.history = s.history ∧
      (∀ m, msg = some m → m ≠ "" → (handleGenerate s env).1.error = some m) ∧
      (msg = none → (handleGenerate s env).1.error = some genericFaultMsg)) := by
  constructor
  · intro resp hr hnone
    have hurl := extractImageUrl_eq_empty hnone
    constructor <;> simp [handleGenerate, hp, hk, hr, hurl]
  · intro msg hr
    refine ⟨?_, fun m hm hne => ?_, fun hm => ?_⟩
    · simp [handleGenerate, hp, hk, hr]
    · subst hm
      simp [handleGenerate, hp, hk, hr, faultErrorMessage, hne]
    · subst hm
      simp [handleGenerate, hp, hk, hr, faultErrorMessage]

/-- C3 witness: the "rate limited" fault scenario and the zero-part
response scenario at concrete states. -/
theorem generate_failure_errors_witness :
    ((handleGenerate stPrompted envFault).1.history = stPrompted.history ∧
      (handleGenerate stPrompted envFault).1.error = some "rate limited") ∧
    ((handleGenerate stPrompted envEmptyResp).1.error = some noImageDataMsg ∧
      (handleGenerate stPrompted envEmptyResp).1.history = stPrompted.history) := by
  constructor
  · have h := (generate_failure_errors stPrompted envFault (by decide) rfl).2
      (some "rate limited") rfl
    exact ⟨h.1, h.2.1 "rate limited" rfl (by decide)⟩
  · exact (generate_failure_errors stPrompted envEmptyResp (by decide) rfl).1
      respNoRespParts rfl (by decide)

/-- C1: a successful generate() — non-blank trimmed prompt, credential
configured, response holding an inline payload — prepends exactly one new
image carrying the invocation's prompt and the current aspectRatio to
history, makes it the selected image, and clears the prompt. -/
theorem generate_success_updates (s : AppState) (env : GenEnv)
    (hp : jsTrim s.prompt ≠ "") (hk : env.apiConfigured = true)
    (resp : GenResponse) (hr : env.result = GenOutcome.success resp)
    (hinline : ∃ p ∈ responseParts resp, p.inlineData.isSome) :
    ∃ img : GeneratedImage,
      (handleGenerate s env).1.history = img :: s.history ∧
      img.prompt = s.prompt ∧
      img.aspectRatio = s.aspectRatio ∧
      (handleGenerate s env).1.selectedImage = some img ∧
      (handleGenerate s env).1.prompt = "" := by
  have hurl := extractImageUrl_ne_empty hinline
  refine ⟨⟨env.freshId, extractImageUrl (responseParts resp), s.prompt,
    env.now, s.aspectRatio⟩, ?_, rfl, rfl, ?_, ?_⟩ <;>
    simp [handleGenerate, hp, hk, hr, hurl]

/-- C1 witness: the "a red circle" scenario with a one-payload response. -/
theorem generate_success_updates_witness :
    ∃ img : GeneratedImage,
      (handleGenerate stPrompted envSuccess).1.history
        = img :: stPrompted.history ∧
      img.prompt = stPrompted.prompt ∧
      img.aspectRatio = stPrompted.aspectRatio ∧
      (handleGenerate stPrompted envSuccess).1.selectedImage = some img ∧
      (handleGenerate stPrompted envSuccess).1.prompt = "" :=
  generate_success_updates stPrompted envSuccess (by decide) rfl
    respOneInline rfl ⟨partInline, by decide, rfl⟩

/-- C5: when the response holds at least one inline payload among its
content parts, generate() succeeds, and the first such payload is decoded
into the PNG data URI used as the new image's url. -/
theorem generate_decodes_first_inline (s : AppState) (env : GenEnv)
    (hp : jsTrim s.prompt ≠ "") (hk : env.apiConfigured = true)
    (resp : GenResponse) (hr : env.result = GenOutcome.success resp)
    (p : RespPart) (d : String)
    (hfind : (responseParts resp).find? (fun q => q.inlineData.isSome) = some p)
    (hd : p.inlineData = some d) :
    ∃ img : GeneratedImage,
      (handleGenerate s env).1.history = img :: s.history ∧
      (handleGenerate s env).1.selectedImage = some img ∧
      img.url = "data:image/png;base64," ++ d := by
  have hurl := extractImageUrl_first hfind hd
  have hne : extractImageUrl (responseParts resp) ≠ "" := by
    rw [hurl]; exact dataUri_ne_empty d
  refine ⟨⟨env.freshId, extractImageUrl (responseParts resp), s.prompt,
    env.now, s.aspectRatio⟩, ?_, ?_, ?_⟩
  · simp [handleGenerate, hp, hk, hr, hne]
  · simp [handleGenerate, hp, hk, hr, hne]
  · simpa using hurl

/-- C2: for a precondition-passing invocation starting from an idle
state, the trace begins at the pre-state (isGenerating false), every
state strictly between the start and the outcome's final step has
isGenerating true, and the final step — reached in all three outcomes,
fault included — resets isGenerating to false and yields the
handleGenerate post-state. -/
theorem generate_isGenerating_lifecycle (s : AppState) (env : GenEnv)
    (hp : jsTrim s.prompt ≠ "") (hk : env.apiConfigured = true)
    (hidle : s.isGenerating = false) :
    (handleGenerateTrace s env).head? = some s ∧
    (∀ x ∈ (handleGenerateTrace s env).take 1, x.isGenerating = false) ∧
    (∀ x ∈ ((handleGenerateTrace s env).dropLast).drop 1,
      x.isGenerating = true) ∧
    (handleGenerateTrace s env).getLast? = some (handleGenerate s env).1 ∧
    (handleGenerate s env).1.isGenerating = false := by
  cases hr : env.result with
  | fault msg =>
    refine ⟨?_, ?_, ?_, ?_, ?_⟩ <;>
      simp [handleGenerateTrace, handleGenerate, hp, hk, hr, hidle]
  | success resp =>
    by_cases hurl : extractImageUrl (responseParts resp) = "" <;>
      refine ⟨?_, ?_, ?_, ?_, ?_⟩ <;>
        simp [handleGenerateTrace, handleGenerate, hp, hk, hr, hurl, hidle]

/-- C2 witness: the lifecycle at the concrete success scenario. -/
theorem generate_isGenerating_lifecycle_witness :
    (handleGenerateTrace stPrompted envSuccess).head? = some stPrompted ∧
    (∀ x ∈ (handleGenerateTrace stPrompted envSuccess).take 1,
      x.isGenerating = false) ∧
    (∀ x ∈ ((handleGenerateTrace stPrompted envSuccess).dropLast).drop 1,
      x.isGenerating = true) ∧
    (handleGenerateTrace stPrompted envSuccess).getLast?
      = some (handleGenerate stPrompted envSuccess).1 ∧
    (handleGenerate stPrompted envSuccess).1.isGenerating = false :=
  generate_isGenerating_lifecycle stPrompted envSuccess (by decide) rfl rfl

/-- C5 witness: the single-payload response decodes its payload. -/
theorem generate_decodes_first_inline_witness :
    ∃ img : GeneratedImage,
      (handleGenerate stPrompted envSuccess).1.history
        = img :: stPrompted.history ∧
      (handleGenerate stPrompted envSuccess).1.selectedImage = some img ∧
      img.url = "data:image/png;base64," ++ "QUJD" :=
  generate_decodes_first_inline stPrompted envSuccess (by decide) rfl
    respOneInline rfl partInline "QUJD" (by decide) rfl

lemma filter_ne_length {l : List GeneratedImage} {id : String}
    (hnodup : (l.map GeneratedImage.id).Nodup)
    {x : GeneratedImage} (hx : x ∈ l) (hid : x.id = id) :
    (l.filter (fun img => img.id != id)).length + 1 = l.length := by
  induction l with
  | nil => cases hx
  | cons y t ih =>
    rw [List.map_cons, List.nodup_cons] at hnodup
    by_cases hy : y.id = id
    · have hfilter : t.filter (fun img => img.id != id) = t := by
        apply List.filter_eq_self.mpr
        intro a ha
        simp only [bne_iff_ne, ne_eq, decide_eq_true_eq]
        intro hcontra
        exact hnodup.1 (List.mem_map.mpr ⟨a, ha, by rw [hcontra, hy]⟩)
      simp [List.filter_cons, hy, hfilter]
    · have hx' : x ∈ t := by
        rcases List.mem_cons.mp hx with rfl | h
        · exact absurd hid hy
        · exact h
      have hlen := ih hnodup.2 hx'
      have hcond : (y.id != id) = true := by simpa [bne_iff_ne] using hy
      rw [List.filter_cons, if_pos hcond, List.length_cons, List.length_cons]
      omega

/-- C6: under distinct history ids and a well-formed selection,
deleteImage(id) removes exactly the entry with that id and no other,
clears the selection when it carried that id, and is a no-op when no
entry has that id. -/
theorem deleteImage_spec (s : AppState) (id : String)
    (hnodup : (s.history.map GeneratedImage.id).Nodup) (hwf : WF s) :
    ((∃ img ∈ s.history, img.id = id) →
      (deleteImage s id).history.length + 1 = s.history.length) ∧
    (∀ img ∈ s.history, img.id ≠ id → img ∈ (deleteImage s id).history) ∧
    (∀ img ∈ (deleteImage s id).history, img ∈ s.history ∧ img.id ≠ id) ∧
    (∀ img, s.selectedImage = some img → img.id = id →
      (deleteImage s id).selectedImage = none) ∧
    ((∀ img ∈ s.history, img.id ≠ id) → deleteImage s id = s) := by
  refine ⟨?_, ?_, ?_, ?_, ?_⟩
  · rintro ⟨img, hmem, hid⟩
    exact filter_ne_length hnodup hmem hid
  · intro img hmem hne
    show img ∈ s.history.filter (fun i => i.id != id)
    exact List.mem_filter.mpr ⟨hmem, by simpa [bne_iff_ne] using hne⟩
  · intro img hmem
    have h := List.mem_filter.mp hmem
    exact ⟨h.1, by simpa [bne_iff_ne] using h.2⟩
  · intro img hsel hid
    show (match s.selectedImage with
      | some sel => if sel.id = id then none else some sel
      | none => none) = none
    rw [hsel]
    simp [hid]
  · intro hall
    have hfilter : s.history.filter (fun img => img.id != id) = s.history :=
      List.filter_eq_self.mpr fun a ha => by
        simpa [bne_iff_ne] using hall a ha
    rcases s with ⟨p, g, a, h, sel, e⟩
    cases sel with
    | none => simp [deleteImage] at hfilter ⊢; exact hfilter
    | some selimg =>
      have hne : selimg.id ≠ id := hall selimg (hwf selimg rfl)
      simp [deleteImage, hne] at hfilter ⊢
      exact hfilter

/-- An image used in concrete delete scenarios. -/
def imgA : GeneratedImage :=
  { id := "a1", url := "u", prompt := "p", timestamp := 0, aspectRatio := "1:1" }

/-- A state holding and selecting `imgA`. -/
def stWithImage : AppState :=
  { prompt := "", isGenerating := false, aspectRatio := "1:1",
    history := [imgA], selectedImage := some imgA, error := none }

/-- C6 witness: deleting the selected sole entry empties history and
clears the selection. -/
theorem deleteImage_spec_witness :
    (deleteImage stWithImage "a1").history.length + 1
      = stWithImage.history.length ∧
    (deleteImage stWithImage "a1").selectedImage = none := by
  have hwf : WF stWithImage := by
    intro img hsel
    simp [stWithImage] at hsel ⊢
    exact hsel.symm
  have h := deleteImage_spec stWithImage "a1" (by decide) hwf
  exact ⟨h.1 ⟨imgA, by decide, rfl⟩, h.2.2.2.1 imgA rfl rfl⟩

lemma handleGenerate_history (s : AppState) (env : GenEnv) :
    (handleGenerate s env).1.history = s.history ∨
    ∃ img, (handleGenerate s env).1.history = img :: s.history := by
  by_cases hp : jsTrim s.prompt = ""
  · left; simp [handleGenerate, hp]
  · by_cases hk : env.apiConfigured = false
    · left; simp [handleGenerate, hp, hk]
    · cases hr : env.result with
      | fault msg => left; simp [handleGenerate, hp, hk, hr]
      | success resp =>
        by_cases hurl : extractImageUrl (responseParts resp) = ""
        · left; simp [handleGenerate, hp, hk, hr, hurl]
        · right
          refine ⟨⟨env.freshId, extractImageUrl (responseParts resp),
            s.prompt, env.now, s.aspectRatio⟩, ?_⟩
          simp [handleGenerate, hp, hk, hr, hurl]

lemma applyOp_history_shape (s : AppState) (op : Op) :
    (applyOp s op).history.Sublist s.history ∨
    ∃ img, (applyOp s op).history = img :: s.history := by
  cases op with
  | opSetPrompt t => left; exact List.Sublist.refl _
  | opSetAspectRatio v =>
    left
    by_cases hv : v ∈ aspectRatioValues <;> simp [applyOp, hv, setAspectRatio]
  | opGenerate env =>
    rcases handleGenerate_history s env with h | ⟨img, h⟩
    · left; rw [show (applyOp s (Op.opGenerate env)).history
        = (handleGenerate s env).1.history from rfl, h]
    · right; exact ⟨img, h⟩
  | opSelect id =>
    left
    cases hfind : s.history.find? (fun img => img.id == id) <;>
      simp [applyOp, selectImage, hfind]
  | opDelete id => left; exact List.filter_sublist _
  | opDownload url filename => left; exact List.Sublist.refl _

lemma applyOp_history_sublist (s : AppState) (op : Op) :
    (applyOp s op).history.Sublist
      ((applyOp s op).history.take
        ((applyOp s op).history.length - s.history.length) ++ s.history) := by
  rcases applyOp_history_shape s op with h | ⟨img, h⟩
  · have hlen : (applyOp s op).history.length ≤ s.history.length :=
      h.length_le
    rw [Nat.sub_eq_zero_of_le hlen, List.take_zero, List.nil_append]
    exact h
  · rw [h]
    have h1 : (img :: s.history).length - s.history.length = 1 := by
      simp [List.length_cons]
    rw [h1]
    simp

lemma runOps_history_sublist (ops : List Op) (s : AppState) :
    (runOps s ops).history.Sublist (generatedImages s ops ++ s.history) := by
  induction ops generalizing s with
  | nil => simp [runOps, generatedImages]
  | cons op ops ih =>
    have h1 := ih (applyOp s op)
    have h2 := List.Sublist.append_left (applyOp_history_sublist s op)
      (generatedImages (applyOp s op) ops)
    have h3 : (runOps s (op :: ops)).history.Sublist
        (generatedImages (applyOp s op) ops
          ++ ((applyOp s op).history.take
            ((applyOp s op).history.length - s.history.length)
            ++ s.history)) :=
      List.Sublist.trans h1 h2
    have h4 : generatedImages s (op :: ops) ++ s.history
        = generatedImages (applyOp s op) ops
          ++ ((applyOp s op).history.take
            ((applyOp s op).history.length - s.history.length)
            ++ s.history) := by
      simp [generatedImages, List.append_assoc]
    rw [h4]
    exact h3

/-- C7: history order is strictly insertion order, most recent first —
after any run from the initial state, history is a subsequence of the
full insertion sequence (newest first) — and neither selectImage nor
deleteImage reorders surviving entries: selection leaves history
untouched and deletion leaves an order-preserving subsequence. -/
theorem history_insertion_order :
    (∀ ops : List Op, (runOps initState ops).history.Sublist
      (generatedImages initState ops)) ∧
    (∀ (s : AppState) (id : String), (selectImage s id).history = s.history) ∧
    (∀ (s : AppState) (id : String),
      (deleteImage s id).history.Sublist s.history) := by
  refine ⟨fun ops => ?_, fun s id => ?_, fun s id => ?_⟩
  · simpa [initState] using runOps_history_sublist ops initState
  · cases hfind : s.history.find? (fun img => img.id == id) <;>
      simp [selectImage, hfind]
  · exact List.filter_sublist _

lemma WF_handleGenerate (s : AppState) (env : GenEnv) (hwf : WF s) :
    WF (handleGenerate s env).1 := by
  by_cases hp : jsTrim s.prompt = ""
  · intro img h
    simp [handleGenerate, hp] at h ⊢
    exact hwf img h
  · by_cases hk : env.apiConfigured = false
    · intro img h
      simp [handleGenerate, hp, hk] at h ⊢
      exact hwf img h
    · cases hr : env.result with
      | fault msg =>
        intro img h
        simp [handleGenerate, hp, hk, hr] at h ⊢
        exact hwf img h
      | success resp =>
        by_cases hurl : extractImageUrl (responseParts resp) = ""
        · intro img h
          simp [handleGenerate, hp, hk, hr, hurl] at h ⊢
          exact hwf img h
        · intro img h
          simp [handleGenerate, hp, hk, hr, hurl] at h ⊢
          left
          exact h.symm

lemma WF_selectImage (s : AppState) (id : String) (hwf : WF s) :
    WF (selectImage s id) := by
  intro img h
  cases hfind : s.history.find? (fun i => i.id == id) with
  | none =>
    simp [selectImage, hfind] at h ⊢
    exact hwf img h
  | some found =>
    simp [selectImage, hfind] at h ⊢
    rw [← h]
    exact List.mem_of_find?_eq_some hfind

lemma WF_deleteImage (s : AppState) (id : String) (hwf : WF s) :
    WF (deleteImage s id) := by
  intro img h
  cases hsel : s.selectedImage with
  | none => simp [deleteImage, hsel] at h
  | some sel =>
    by_cases hid : sel.id = id
    · simp [deleteImage, hsel, hid] at h
    · have hsi : (deleteImage s id).selectedImage = some sel := by
        simp [deleteImage, hsel, hid]
      rw [hsi] at h
      injection h with h
      subst h
      show sel ∈ s.history.filter (fun i => i.id != id)
      refine List.mem_filter.mpr ⟨hwf sel hsel, ?_⟩
      simpa [bne_iff_ne] using hid

lemma WF_applyOp (s : AppState) (op : Op) (hwf : WF s) : WF (applyOp s op) := by
  cases op with
  | opSetPrompt t => intro img h; exact hwf img h
  | opSetAspectRatio v =>
    by_cases hv : v ∈ aspectRatioValues
    · intro img h
      simp [applyOp, hv, setAspectRatio] at h ⊢
      exact hwf img h
    · intro img h
      simp [applyOp, hv] at h ⊢
      exact hwf img h
  | opGenerate env => exact WF_handleGenerate s env hwf
  | opSelect id => exact WF_selectImage s id hwf
  | opDelete id => exact WF_deleteImage s id hwf
  | opDownload url filename => intro img h; exact hwf img h

lemma WF_runOps (ops : List Op) : ∀ s, WF s → WF (runOps s ops) := by
  induction ops with
  | nil => intro s h; exact h
  | cons op ops ih => intro s h; exact ih _ (WF_applyOp s op h)

/-- C8: a non-null selection always references an entry present in
history: every operation preserves the invariant — deletion in
particular clears the selection when the selected id is removed — and
every state reachable from the initial state satisfies it. -/
theorem selection_in_history :
    (∀ (s : AppState) (op : Op), WF s → WF (applyOp s op)) ∧
    (∀ ops : List Op, WF (runOps initState ops)) := by
  refine ⟨fun s op h => WF_applyOp s op h, fun ops => ?_⟩
  apply WF_runOps
  intro img h
  simp [initState] at h

/-- C8 witness: the invariant after a delete on a concrete state and
after a run performing one successful generation. -/
theorem selection_in_history_witness :
    WF (applyOp stWithImage (Op.opDelete "a1")) ∧
    WF (runOps initState [Op.opGenerate envSuccess]) := by
  constructor
  · apply selection_in_history.1 stWithImage (Op.opDelete "a1")
    intro img hsel
    simp [stWithImage] at hsel ⊢
    exact hsel.symm
  · exact selection_in_history.2 [Op.opGenerate envSuccess]
